import Mathlib

/-!
Verification of the passport-sqrl SQRL protocol engine.

This file gives a shallow embedding of:
* the SQRL URL generator (src/src/passport-sqrl/SqrlUrl.ts, SqrlUrlFactory.create);
* the mock client's URL canonicalization and server-body decoding
  (src/unnamed/part_000, MockSQRLClient);
* the test site's identity / nut state machine
  (src/src/testSite/TestSiteHandler.ts).

JavaScript behaviours that matter observationally are modelled explicitly:
string truthiness (undefined and the empty string are falsy), property access
on non-objects yielding undefined, Number conversion yielding NaN, and the
NeDB promisified update call resolving to an update count.
-/

/-! ## JavaScript value helpers -/

/-- Truthiness of a JS string-or-undefined value: undefined and `""` are falsy. -/
def jsTruthyOptStr : Option String → Bool
  | none => false
  | some s => !(s == "")

/-- Truthiness of a JS number-or-undefined value: undefined and 0 are falsy. -/
def jsTruthyOptInt : Option Int → Bool
  | none => false
  | some n => !(n == 0)

/-- JS `str.split(sep)` for a one-character separator, over character lists.
The result always has at least one piece; `"".split(c)` is `[""]`. -/
def splitOnChar (c : Char) : List Char → List (List Char)
  | [] => [[]]
  | x :: xs =>
    let r := splitOnChar c xs
    if x == c then [] :: r else (x :: r.headD []) :: r.tail

/-- ASCII lower-casing of one character, as JS `toLowerCase` acts on ASCII. -/
def asciiLowerChar (c : Char) : Char :=
  if 65 ≤ c.toNat ∧ c.toNat ≤ 90 then Char.ofNat (c.toNat + 32) else c

/-- ASCII lower-casing of a string (model of JS `toLowerCase` on ASCII data). -/
def asciiLowerStr (s : String) : String :=
  String.mk (s.data.map asciiLowerChar)

/-- Decimal digit test via code points (48..57). -/
def isDigitC (c : Char) : Bool := 48 ≤ c.toNat && c.toNat ≤ 57

/-- Value of a decimal digit list (most significant first). -/
def digitsToNat (l : List Char) : Nat :=
  l.foldl (fun acc c => acc * 10 + (c.toNat - 48)) 0

/-- Model of JS `Number(str)` restricted to the integer-literal subset that the
SQRL version grammar uses: the empty string converts to 0, an optional sign
followed by decimal digits converts to the signed value, and anything else is
NaN (`none`).  (Float, hex and whitespace forms of JS `Number` are outside the
inputs exercised by the version-range code and are mapped to NaN here.) -/
def jsNumber (l : List Char) : Option Int :=
  if l = [] then some 0
  else if l.head? = some '+' then
    (if l.tail ≠ [] ∧ l.tail.all isDigitC then some ((digitsToNat l.tail : Int)) else none)
  else if l.head? = some '-' then
    (if l.tail ≠ [] ∧ l.tail.all isDigitC then some (-(digitsToNat l.tail : Int)) else none)
  else if l.all isDigitC then some ((digitsToNat l : Int)) else none

/-- Hex digit test (0-9, a-f, A-F) via code points. -/
def isHexDigitC (c : Char) : Bool :=
  (48 ≤ c.toNat && c.toNat ≤ 57) || (97 ≤ c.toNat && c.toNat ≤ 102) ||
    (65 ≤ c.toNat && c.toNat ≤ 70)

/-- Value of one hex digit. -/
def hexDigitVal (c : Char) : Nat :=
  if 48 ≤ c.toNat ∧ c.toNat ≤ 57 then c.toNat - 48
  else if 97 ≤ c.toNat ∧ c.toNat ≤ 102 then c.toNat - 87
  else if 65 ≤ c.toNat ∧ c.toNat ≤ 70 then c.toNat - 55
  else 0

/-- Model of JS `parseInt(str, 16)` on the strings the protocol emits: the
longest leading run of hex digits is parsed; no digits gives NaN (`none`). -/
def jsParseIntHex (s : String) : Option Int :=
  let ds := s.data.takeWhile isHexDigitC
  if ds = [] then none else some ((ds.foldl (fun acc c => acc * 16 + hexDigitVal c) 0 : Nat) : Int)

/-! ## base64url encoding

Model of the npm `base64-url` / `base64url` encode function: standard base64
over the UTF-8 bytes, with the URL-safe alphabet and no padding. -/

/-- The base64url digit alphabet. -/
def base64Digit (n : Nat) : Char :=
  ("ABCDEFGHIJKLMNOPQRSTUVWXYZabcdefghijklmnopqrstuvwxyz0123456789-_".data).getD n 'A'

/-- base64url digits of a byte list, three bytes at a time, no padding. -/
def base64UrlChunks : List Nat → List Char
  | [] => []
  | [b1] => [base64Digit (b1 / 4), base64Digit (b1 % 4 * 16)]
  | [b1, b2] => [base64Digit (b1 / 4), base64Digit (b1 % 4 * 16 + b2 / 16),
      base64Digit (b2 % 16 * 4)]
  | b1 :: b2 :: b3 :: rest =>
    base64Digit (b1 / 4) :: base64Digit (b1 % 4 * 16 + b2 / 16) ::
      base64Digit (b2 % 16 * 4 + b3 / 64) :: base64Digit (b3 % 64) :: base64UrlChunks rest

/-- base64url encoding of a string's UTF-8 bytes (npm base64url `encode`). -/
def base64UrlEncode (s : String) : String :=
  String.mk (base64UrlChunks (s.toUTF8.toList.map UInt8.toNat))

/-! ## URL generator (src/src/passport-sqrl/SqrlUrl.ts lines 29-64) -/

/-- Statement `if (!pathString) { pathString = ''; }` of `SqrlUrlFactory.create`:
an undefined or empty path becomes the empty string. -/
def jsDefaultedPath (pathString : Option String) : List Char :=
  if jsTruthyOptStr pathString then (pathString.getD "").data else []

/-- Statement `if (pathString.length > 0 && pathString[0] !== '/') ...` of
`SqrlUrlFactory.create`: a non-empty path not starting with a slash gets one. -/
def jsEnsureLeadingSlash (p : List Char) : List Char :=
  match p with
  | [] => []
  | a :: rest => if a ≠ '/' then '/' :: a :: rest else a :: rest

/-- Statement `if (pathString.endsWith('?')) { ...substring(0, length - 1); }`
of `SqrlUrlFactory.create`: one trailing question mark is removed. -/
def jsStripTrailingQuestion (p : List Char) : List Char :=
  if p.getLast? = some '?' then p.dropLast else p

/-- Shallow embedding of `SqrlUrlFactory.create`.  Buffers are not modelled:
`serverNut` is taken as the string interpolated into the template literal.
Each stage mirrors one statement of the TypeScript body. -/
def SqrlUrlFactory.create (secure : Bool) (domain : String) (serverNut : String)
    (pathString : Option String) (domainExtension : Option Int)
    (serverFriendlyName : Option String) : String :=
  let scheme : String := if secure then "sqrl" else "qrl"
  let p2 : List Char :=
    jsStripTrailingQuestion (jsEnsureLeadingSlash (jsDefaultedPath pathString))
  -- domainExt: truthiness of domainExtension plus Math.min clamping
  let domainExt : String :=
    if 0 < p2.length ∧ jsTruthyOptInt domainExtension = true ∧ 0 < domainExtension.getD 0 then
      "&x=" ++ toString (min (domainExtension.getD 0) (p2.length : Int))
    else ""
  -- sfn: emitted when serverFriendlyName is truthy and non-empty
  let sfn : String :=
    if jsTruthyOptStr serverFriendlyName = true ∧ 0 < (serverFriendlyName.getD "").length then
      "&sfn=" ++ base64UrlEncode (serverFriendlyName.getD "")
    else ""
  scheme ++ "://" ++ domain ++ String.mk p2 ++ "?nut=" ++ serverNut ++ domainExt ++ sfn

/-- Claim-side reformulation of the URL generator, phrased directly from the
specification's description: scheme chosen by `secure`; an absent path becomes
the empty string; a non-empty path lacking a leading slash gets one; a
trailing question mark is stripped; a positive `domainExtension` is clamped to
at most the processed path's length and emitted as `&x=` only for a non-empty
path; a non-empty friendly name is base64url-encoded into `&sfn=`; the query
always begins with `?nut=`.  Compared against `SqrlUrlFactory.create`. -/
def sqrlUrlSpecPath (pathString : Option String) : List Char :=
  let rawPath : List Char :=
    match pathString with
    | none => []
    | some p => p.data
  let slashed : List Char :=
    if rawPath ≠ [] ∧ rawPath.head? ≠ some '/' then '/' :: rawPath else rawPath
  if slashed.getLast? = some '?' then slashed.dropLast else slashed

def sqrlUrlGenerateSpec (secure : Bool) (domain : String) (serverNut : String)
    (pathString : Option String) (domainExtension : Option Int)
    (serverFriendlyName : Option String) : String :=
  let scheme : String := if secure then "sqrl" else "qrl"
  let finalPath : List Char := sqrlUrlSpecPath pathString
  let extPart : String :=
    match domainExtension with
    | none => ""
    | some n =>
      if 0 < n ∧ finalPath ≠ [] then "&x=" ++ toString (min n (finalPath.length : Int)) else ""
  let sfnPart : String :=
    match serverFriendlyName with
    | none => ""
    | some f => if f ≠ "" then "&sfn=" ++ base64UrlEncode f else ""
  scheme ++ "://" ++ domain ++ String.mk finalPath ++ ("?nut=" ++ serverNut) ++ extPart ++ sfnPart

/-! ## String helper lemmas -/

theorem strData_append (a b : String) : (a ++ b).data = a.data ++ b.data := rfl

theorem strExt {a b : String} (h : a.data = b.data) : a = b := by
  cases a with
  | mk d1 =>
    cases b with
    | mk d2 => exact congrArg String.mk h

/-- The code's three path-rewriting statements compute the spec's processed path. -/
theorem jsPath_eq_specPath (pathString : Option String) :
    jsStripTrailingQuestion (jsEnsureLeadingSlash (jsDefaultedPath pathString))
      = sqrlUrlSpecPath pathString := by
  have hbase : jsDefaultedPath pathString
      = (match pathString with | none => [] | some p => p.data) := by
    cases pathString with
    | none => rfl
    | some p =>
      by_cases hp : p = ""
      · subst hp; rfl
      · have : (p == "") = false := by
          simpa using hp
        simp [jsDefaultedPath, jsTruthyOptStr, this]
  have hslash : ∀ l : List Char,
      jsEnsureLeadingSlash l = if l ≠ [] ∧ l.head? ≠ some '/' then '/' :: l else l := by
    intro l
    cases l with
    | nil => simp [jsEnsureLeadingSlash]
    | cons a rest =>
      by_cases ha : a = '/'
      · subst ha; simp [jsEnsureLeadingSlash]
      · simp [jsEnsureLeadingSlash, ha]
  unfold sqrlUrlSpecPath
  rw [hbase, hslash]
  rfl

theorem spec2proof_c6_helper_ext (p : List Char) (domainExtension : Option Int) :
    (if 0 < p.length ∧ jsTruthyOptInt domainExtension = true ∧ 0 < domainExtension.getD 0 then
        "&x=" ++ toString (min (domainExtension.getD 0) (p.length : Int))
      else "")
    = (match domainExtension with
       | none => ""
       | some n => if 0 < n ∧ p ≠ [] then "&x=" ++ toString (min n (p.length : Int)) else "") := by
  cases domainExtension with
  | none => simp [jsTruthyOptInt]
  | some n =>
    show (if 0 < p.length ∧ jsTruthyOptInt (some n) = true
            ∧ 0 < (some n : Option Int).getD 0 then
          "&x=" ++ toString (min ((some n : Option Int).getD 0) (p.length : Int))
        else "")
      = (if 0 < n ∧ p ≠ [] then "&x=" ++ toString (min n (p.length : Int)) else "")
    by_cases hn : 0 < n
    · have htru : jsTruthyOptInt (some n) = true := by
        have hne : (n == 0) = false := by
          have : n ≠ 0 := by omega
          simpa using this
        simp [jsTruthyOptInt, hne]
      by_cases hp : p = []
      · subst hp
        rw [if_neg (by simp), if_neg (by simp)]
      · have hlen : 0 < p.length := List.length_pos.mpr hp
        rw [if_pos ⟨hlen, htru, by simpa using hn⟩, if_pos ⟨hn, hp⟩]
        rfl
    · have hng : ¬ (0 < p.length ∧ jsTruthyOptInt (some n) = true
          ∧ 0 < (some n : Option Int).getD 0) := by
        intro h
        exact hn (by simpa using h.2.2)
      rw [if_neg hng, if_neg (fun h => hn h.1)]

theorem spec2proof_c6_helper_sfn (serverFriendlyName : Option String) :
    (if jsTruthyOptStr serverFriendlyName = true ∧ 0 < (serverFriendlyName.getD "").length then
        "&sfn=" ++ base64UrlEncode (serverFriendlyName.getD "")
      else "")
    = (match serverFriendlyName with
       | none => ""
       | some f => if f ≠ "" then "&sfn=" ++ base64UrlEncode f else "") := by
  cases serverFriendlyName with
  | none => simp [jsTruthyOptStr]
  | some f =>
    show (if jsTruthyOptStr (some f) = true ∧ 0 < ((some f : Option String).getD "").length then
          "&sfn=" ++ base64UrlEncode ((some f : Option String).getD "")
        else "")
      = (if f ≠ "" then "&sfn=" ++ base64UrlEncode f else "")
    by_cases hf : f = ""
    · subst hf
      rw [if_neg (by simp [jsTruthyOptStr]), if_neg (by simp)]
    · have htru : jsTruthyOptStr (some f) = true := by
        have hne : (f == "") = false := by simpa using hf
        simp [jsTruthyOptStr, hne]
      have hlen : 0 < f.length := by
        have hd : f.data ≠ [] := by
          intro h
          exact hf (strExt (by simpa using h))
        exact List.length_pos.mpr hd
      rw [if_pos ⟨htru, hlen⟩, if_pos hf]
      rfl

/-- Claim C6: the URL generator agrees with the specification's description of
scheme selection, path defaulting, slash prefixing, trailing-question-mark
stripping, domain-extension clamping and emission, friendly-name encoding, and
the shape of the query string. -/
theorem spec2proof_C6 (secure : Bool) (domain serverNut : String)
    (pathString : Option String) (domainExtension : Option Int)
    (serverFriendlyName : Option String) :
    SqrlUrlFactory.create secure domain serverNut pathString domainExtension serverFriendlyName
      = sqrlUrlGenerateSpec secure domain serverNut pathString domainExtension
          serverFriendlyName := by
  simp only [SqrlUrlFactory.create, sqrlUrlGenerateSpec]
  rw [jsPath_eq_specPath, spec2proof_c6_helper_ext, spec2proof_c6_helper_sfn]
  apply strExt
  simp [strData_append, List.append_assoc]

/-! ## URL canonicalization (src/unnamed/part_000 lines 19-27) -/

/-- Authority delimiters in Node's legacy url parser: the authority section
runs until the first '/', '?' or '#'. -/
def notAuthorityDelim (c : Char) : Bool := c ≠ '/' && c ≠ '?' && c ≠ '#'

/-- Split a character list at the first occurrence of a character (which is
dropped); `none` when the character does not occur. -/
def breakAtChar (c : Char) : List Char → Option (List Char × List Char)
  | [] => none
  | x :: xs =>
    if x == c then some ([], xs)
    else (breakAtChar c xs).map (fun q => (x :: q.1, q.2))

/-- The characters after the last '@' (drops the userinfo section). -/
def afterLastAt (l : List Char) : List Char :=
  (l.reverse.takeWhile (fun c => c ≠ '@')).reverse

structure UrlObj where
  protocol : Option String
  hostname : Option String
  path : Option String
deriving DecidableEq

/-- Model of Node's legacy `url.parse` (parseQueryString false) on the URL
shapes the SQRL client handles: `scheme://[userinfo@]host[:port][pathquery][#frag]`.
`protocol` keeps its ':' suffix; `path` is the combined path and query string
with the fragment cut off, `null` (`none`) when empty; a string without a ':'
yields empty components.  Node lower-cases protocol and hostname itself; since
the only consumer in scope applies `toLowerCase` to both anyway, the model
leaves the raw characters in place. -/
def nodeUrlParse (s : String) : UrlObj :=
  match breakAtChar ':' s.data with
  | none => { protocol := none, hostname := none, path := none }
  | some (sch, rest) =>
    if rest.take 2 = ['/', '/'] then
      let after2 := rest.drop 2
      let authority := after2.takeWhile notAuthorityDelim
      let pathq := (after2.dropWhile notAuthorityDelim).takeWhile (fun c => c ≠ '#')
      let hostport := afterLastAt authority
      let hostname := hostport.takeWhile (fun c => c ≠ ':')
      { protocol := some (String.mk (sch ++ [':'])),
        hostname := some (String.mk hostname),
        path := if pathq = [] then none else some (String.mk pathq) }
    else
      { protocol := some (String.mk (sch ++ [':'])), hostname := none,
        path := if rest = [] then none else some (String.mk rest) }

/-- Shallow embedding of `MockSQRLClient.canonicalizeSqrlUrl`: lower-case the
scheme and hostname, keep the combined path and query verbatim, and drop every
other URL part. -/
def MockSQRLClient.canonicalizeSqrlUrl (sqrlUrl : String) : String :=
  let urlObj := nodeUrlParse sqrlUrl
  -- let scheme = (urlObj.protocol || '').toLowerCase();  // already has ':' suffix
  let scheme := asciiLowerStr (urlObj.protocol.getD "")
  -- let domain = (urlObj.hostname || '').toLowerCase();
  let domain := asciiLowerStr (urlObj.hostname.getD "")
  -- let path = urlObj.path ? urlObj.path : '';
  let path := if jsTruthyOptStr urlObj.path then urlObj.path.getD "" else ""
  scheme ++ "//" ++ domain ++ path

/-! ## Lemmas about the URL parser model -/

/-- Lower-case-domain characters: lower-case letters, digits, '.', '-'. -/
def domainNameChar (c : Char) : Bool :=
  (97 ≤ c.toNat && c.toNat ≤ 122) || (48 ≤ c.toNat && c.toNat ≤ 57) || c == '.' || c == '-'

/-- Host characters for the general canonicalization law: also upper-case letters. -/
def hostNameChar (c : Char) : Bool :=
  domainNameChar c || (65 ≤ c.toNat && c.toNat ≤ 90)

theorem char_ne_of_toNat {c d : Char} (h : c.toNat ≠ d.toNat) : c ≠ d :=
  fun he => h (he ▸ rfl)

theorem domainNameChar_facts {c : Char} (h : domainNameChar c = true) :
    asciiLowerChar c = c ∧ notAuthorityDelim c = true ∧ ¬ c = ':' ∧ ¬ c = '@' ∧ ¬ c = '#' := by
  unfold domainNameChar at h
  simp only [Bool.or_eq_true, Bool.and_eq_true, decide_eq_true_eq, beq_iff_eq] at h
  rcases h with ((h | h) | h) | h
  · refine ⟨?_, ?_, ?_, ?_, ?_⟩
    · unfold asciiLowerChar
      rw [if_neg (by omega)]
    · unfold notAuthorityDelim
      simp only [Bool.and_eq_true, decide_eq_true_eq]
      refine ⟨⟨?_, ?_⟩, ?_⟩ <;>
        (apply char_ne_of_toNat; have h1 : Char.toNat '/' = 47 := rfl;
         have h2 : Char.toNat '?' = 63 := rfl; have h3 : Char.toNat '#' = 35 := rfl; omega)
    · apply char_ne_of_toNat; have : Char.toNat ':' = 58 := rfl; omega
    · apply char_ne_of_toNat; have : Char.toNat '@' = 64 := rfl; omega
    · apply char_ne_of_toNat; have : Char.toNat '#' = 35 := rfl; omega
  · refine ⟨?_, ?_, ?_, ?_, ?_⟩
    · unfold asciiLowerChar
      rw [if_neg (by omega)]
    · unfold notAuthorityDelim
      simp only [Bool.and_eq_true, decide_eq_true_eq]
      refine ⟨⟨?_, ?_⟩, ?_⟩ <;>
        (apply char_ne_of_toNat; have h1 : Char.toNat '/' = 47 := rfl;
         have h2 : Char.toNat '?' = 63 := rfl; have h3 : Char.toNat '#' = 35 := rfl; omega)
    · apply char_ne_of_toNat; have : Char.toNat ':' = 58 := rfl; omega
    · apply char_ne_of_toNat; have : Char.toNat '@' = 64 := rfl; omega
    · apply char_ne_of_toNat; have : Char.toNat '#' = 35 := rfl; omega
  · subst h; decide
  · subst h; decide

theorem hostNameChar_facts {c : Char} (h : hostNameChar c = true) :
    notAuthorityDelim c = true ∧ ¬ c = ':' ∧ ¬ c = '@' := by
  unfold hostNameChar at h
  simp only [Bool.or_eq_true] at h
  rcases h with h | h
  · exact ⟨(domainNameChar_facts h).2.1, (domainNameChar_facts h).2.2.1,
      (domainNameChar_facts h).2.2.2.1⟩
  · simp only [Bool.and_eq_true, decide_eq_true_eq] at h
    refine ⟨?_, ?_, ?_⟩
    · unfold notAuthorityDelim
      simp only [Bool.and_eq_true, decide_eq_true_eq]
      refine ⟨⟨?_, ?_⟩, ?_⟩ <;>
        (apply char_ne_of_toNat; have h1 : Char.toNat '/' = 47 := rfl;
         have h2 : Char.toNat '?' = 63 := rfl; have h3 : Char.toNat '#' = 35 := rfl; omega)
    · apply char_ne_of_toNat; have : Char.toNat ':' = 58 := rfl; omega
    · apply char_ne_of_toNat; have : Char.toNat '@' = 64 := rfl; omega

theorem isDigitC_facts {c : Char} (h : isDigitC c = true) :
    notAuthorityDelim c = true ∧ ¬ c = '@' := by
  unfold isDigitC at h
  simp only [Bool.and_eq_true, decide_eq_true_eq] at h
  refine ⟨?_, ?_⟩
  · unfold notAuthorityDelim
    simp only [Bool.and_eq_true, decide_eq_true_eq]
    refine ⟨⟨?_, ?_⟩, ?_⟩ <;>
      (apply char_ne_of_toNat; have h1 : Char.toNat '/' = 47 := rfl;
       have h2 : Char.toNat '?' = 63 := rfl; have h3 : Char.toNat '#' = 35 := rfl; omega)
  · apply char_ne_of_toNat; have : Char.toNat '@' = 64 := rfl; omega

theorem breakAtChar_append {c : Char} {xs ys : List Char} (h : ∀ a ∈ xs, ¬ a = c) :
    breakAtChar c (xs ++ c :: ys) = some (xs, ys) := by
  induction xs with
  | nil => simp [breakAtChar]
  | cons a t ih =>
    have ha : (a == c) = false := by
      simpa using h a (List.mem_cons_self a t)
    simp only [List.cons_append, breakAtChar, ha, Bool.false_eq_true, if_false]
    rw [show t.append (c :: ys) = t ++ c :: ys from rfl,
      ih (fun b hb => h b (List.mem_cons_of_mem a hb))]
    rfl

theorem afterLastAt_of_not_mem {l : List Char} (h : ∀ a ∈ l, ¬ a = '@') :
    afterLastAt l = l := by
  unfold afterLastAt
  have hrw : l.reverse.takeWhile (fun c => c ≠ '@') = l.reverse := by
    apply List.takeWhile_eq_self_iff.mpr
    intro a ha
    simpa using h a (List.mem_reverse.mp ha)
  rw [hrw, List.reverse_reverse]

theorem afterLastAt_append {xs ys : List Char} (h : ∀ a ∈ ys, ¬ a = '@') :
    afterLastAt (xs ++ '@' :: ys) = ys := by
  unfold afterLastAt
  have hsplit : (xs ++ '@' :: ys).reverse = ys.reverse ++ '@' :: xs.reverse := by
    simp
  rw [hsplit]
  rw [List.takeWhile_append_of_pos (by
    intro a ha
    simpa using h a (List.mem_reverse.mp ha))]
  rw [List.takeWhile_cons_of_neg (by simp)]
  simp

/-- What the parser model produces on a well-formed authority-carrying URL. -/
theorem nodeUrlParse_eq (sch A2 : List Char) (s : String)
    (hs : s.data = sch ++ ':' :: '/' :: '/' :: A2)
    (hsch : ∀ a ∈ sch, ¬ a = ':') :
    nodeUrlParse s =
      { protocol := some (String.mk (sch ++ [':'])),
        hostname := some (String.mk
          ((afterLastAt (A2.takeWhile notAuthorityDelim)).takeWhile (fun c => c ≠ ':'))),
        path := if (A2.dropWhile notAuthorityDelim).takeWhile (fun c => c ≠ '#') = [] then none
          else some (String.mk ((A2.dropWhile notAuthorityDelim).takeWhile (fun c => c ≠ '#'))) } := by
  unfold nodeUrlParse
  rw [hs, breakAtChar_append hsch]
  rfl

/-- Core canonicalization law: on `scheme://<authority><pathquery>` with a
colon-free scheme, an authority free of path delimiters, and a path+query that
is empty or starts with '/' or '?' and contains no '#', the canonicalizer
lower-cases the scheme and the parsed hostname (userinfo and port removed) and
keeps the path+query verbatim. -/
theorem canonicalize_shape (sch A T : List Char)
    (hsch : ∀ a ∈ sch, ¬ a = ':')
    (hA : ∀ c ∈ A, notAuthorityDelim c = true)
    (hT : T = [] ∨ T.head? = some '/' ∨ T.head? = some '?')
    (hTn : ∀ c ∈ T, ¬ c = '#') :
    MockSQRLClient.canonicalizeSqrlUrl (String.mk (sch ++ ':' :: '/' :: '/' :: (A ++ T)))
      = String.mk ((sch ++ [':']).map asciiLowerChar ++ '/' :: '/' ::
          (((afterLastAt A).takeWhile (fun c => c ≠ ':')).map asciiLowerChar ++ T)) := by
  have htake : (A ++ T).takeWhile notAuthorityDelim = A := by
    rw [List.takeWhile_append_of_pos (by intro a ha; exact hA a ha)]
    rcases hT with h | h | h
    · subst h; simp
    · rcases T with _ | ⟨a, t⟩
      · simp
      · simp only [List.head?_cons, Option.some.injEq] at h
        subst h
        rw [List.takeWhile_cons_of_neg (by decide)]
        simp
    · rcases T with _ | ⟨a, t⟩
      · simp
      · simp only [List.head?_cons, Option.some.injEq] at h
        subst h
        rw [List.takeWhile_cons_of_neg (by decide)]
        simp
  have hdrop : (A ++ T).dropWhile notAuthorityDelim = T := by
    rw [List.dropWhile_append_of_pos (by intro a ha; exact hA a ha)]
    rcases hT with h | h | h
    · subst h; simp
    · rcases T with _ | ⟨a, t⟩
      · simp
      · simp only [List.head?_cons, Option.some.injEq] at h
        subst h
        rw [List.dropWhile_cons_of_neg (by decide)]
    · rcases T with _ | ⟨a, t⟩
      · simp
      · simp only [List.head?_cons, Option.some.injEq] at h
        subst h
        rw [List.dropWhile_cons_of_neg (by decide)]
  have hpathq : T.takeWhile (fun c => c ≠ '#') = T := by
    apply List.takeWhile_eq_self_iff.mpr
    intro a ha
    simpa using hTn a ha
  have hparse := nodeUrlParse_eq sch (A ++ T)
    (String.mk (sch ++ ':' :: '/' :: '/' :: (A ++ T))) rfl hsch
  rw [htake, hdrop, hpathq] at hparse
  unfold MockSQRLClient.canonicalizeSqrlUrl
  rw [hparse]
  rcases eq_or_ne T [] with hTe | hTe
  · subst hTe
    apply strExt
    simp [asciiLowerStr, strData_append]
  · rw [if_neg hTe]
    have htru : jsTruthyOptStr (some (String.mk T)) = true := by
      have : (String.mk T == "") = false := by
        apply beq_false_of_ne
        intro he
        exact hTe (by simpa using congrArg String.data he)
      simp [jsTruthyOptStr, this]
    apply strExt
    simp only [Option.getD_some, htru, if_pos]
    simp [asciiLowerStr, strData_append]

theorem jsEnsure_head (l : List Char) :
    jsEnsureLeadingSlash l = [] ∨ ∃ t, jsEnsureLeadingSlash l = '/' :: t := by
  cases l with
  | nil => left; rfl
  | cons a rest =>
    by_cases ha : a = '/'
    · subst ha
      right
      exact ⟨rest, by simp [jsEnsureLeadingSlash]⟩
    · right
      exact ⟨a :: rest, by simp [jsEnsureLeadingSlash, ha]⟩

theorem jsStrip_head {l : List Char} (h : l = [] ∨ ∃ t, l = '/' :: t) :
    jsStripTrailingQuestion l = [] ∨ ∃ t, jsStripTrailingQuestion l = '/' :: t := by
  rcases h with h | ⟨t, h⟩
  · subst h; left; rfl
  · subst h
    unfold jsStripTrailingQuestion
    by_cases hl : ('/' :: t).getLast? = some '?'
    · rw [if_pos hl]
      cases t with
      | nil => left; rfl
      | cons b t' =>
        right
        exact ⟨(b :: t').dropLast, by simp⟩
    · rw [if_neg hl]
      right
      exact ⟨t, rfl⟩

theorem jsEnsure_subset {l : List Char} {x : Char} (hx : x ∈ jsEnsureLeadingSlash l) :
    x = '/' ∨ x ∈ l := by
  cases l with
  | nil => simp [jsEnsureLeadingSlash] at hx
  | cons a rest =>
    have he : jsEnsureLeadingSlash (a :: rest)
        = if a ≠ '/' then '/' :: a :: rest else a :: rest := rfl
    rw [he] at hx
    by_cases ha : a = '/'
    · rw [if_neg (by simp [ha])] at hx
      right
      exact hx
    · rw [if_pos ha] at hx
      rcases List.mem_cons.mp hx with h | h
      · left; exact h
      · right; exact h

theorem jsStrip_subset {l : List Char} {x : Char} (hx : x ∈ jsStripTrailingQuestion l) :
    x ∈ l := by
  unfold jsStripTrailingQuestion at hx
  split at hx
  · exact List.dropLast_subset l hx
  · exact hx

theorem jsDefault_subset {ps : Option String} {x : Char} (hx : x ∈ jsDefaultedPath ps) :
    x ∈ (ps.getD "").data := by
  unfold jsDefaultedPath at hx
  split at hx
  · exact hx
  · simp at hx

/-- The data of a generated URL with neither domain extension nor friendly name. -/
theorem create_data_no_opts (secure : Bool) (domain serverNut : String)
    (pathString : Option String) :
    (SqrlUrlFactory.create secure domain serverNut pathString none none).data
      = (if secure then "sqrl" else "qrl").data ++ ':' :: '/' :: '/' ::
        (domain.data ++ (jsStripTrailingQuestion (jsEnsureLeadingSlash (jsDefaultedPath pathString))
          ++ '?' :: 'n' :: 'u' :: 't' :: '=' :: serverNut.data)) := by
  have hext : ¬ (0 < (jsStripTrailingQuestion (jsEnsureLeadingSlash
        (jsDefaultedPath pathString))).length
      ∧ jsTruthyOptInt none = true ∧ 0 < (none : Option Int).getD 0) := by
    simp [jsTruthyOptInt]
  have hsfn : ¬ (jsTruthyOptStr none = true ∧ 0 < ((none : Option String).getD "").length) := by
    simp [jsTruthyOptStr]
  have hcolon : ("://" : String).data = [':', '/', '/'] := rfl
  have hnutq : ("?nut=" : String).data = ['?', 'n', 'u', 't', '='] := rfl
  have hq : (("qrl" : String)).data = ['q', 'r', 'l'] := rfl
  have hsq : (("sqrl" : String)).data = ['s', 'q', 'r', 'l'] := rfl
  have hemp : ("" : String).data = [] := rfl
  have hmk : ∀ l : List Char, (String.mk l).data = l := fun l => rfl
  cases secure with
  | false =>
    simp only [SqrlUrlFactory.create]
    rw [if_neg (by simp : ¬ false = true), if_neg hext, if_neg hsfn]
    simp [strData_append, hcolon, hnutq, hq, hemp, hmk, List.append_assoc]
  | true =>
    simp only [SqrlUrlFactory.create]
    rw [if_neg hext, if_neg hsfn]
    simp [strData_append, hcolon, hnutq, hsq, hemp, hmk, List.append_assoc]

theorem map_asciiLower_fix {l : List Char} (h : ∀ c ∈ l, asciiLowerChar c = c) :
    l.map asciiLowerChar = l := by
  induction l with
  | nil => rfl
  | cons a t ih =>
    simp only [List.map_cons]
    rw [h a (List.mem_cons_self a t), ih (fun c hc => h c (List.mem_cons_of_mem a hc))]

/-- Claim C5: canonicalizing a URL produced by the generator yields the very
same string (the generator's output is already in canonical form), and hence
canonicalization is idempotent on it; in general, canonicalization lower-cases
the scheme and host, drops userinfo and port, and preserves the path and query
verbatim (case included). -/
theorem spec2proof_C5 :
    (∀ (secure : Bool) (domain serverNut path : String),
      domain.data ≠ [] →
      (∀ c ∈ domain.data, domainNameChar c = true) →
      (∀ c ∈ path.data, ¬ c = '#') →
      (∀ c ∈ serverNut.data, ¬ c = '#') →
      MockSQRLClient.canonicalizeSqrlUrl
          (SqrlUrlFactory.create secure domain serverNut (some path) none none)
        = SqrlUrlFactory.create secure domain serverNut (some path) none none
      ∧ MockSQRLClient.canonicalizeSqrlUrl (MockSQRLClient.canonicalizeSqrlUrl
          (SqrlUrlFactory.create secure domain serverNut (some path) none none))
        = MockSQRLClient.canonicalizeSqrlUrl
          (SqrlUrlFactory.create secure domain serverNut (some path) none none))
    ∧ (∀ (sch user host port T : List Char),
      (∀ a ∈ sch, ¬ a = ':') →
      (∀ c ∈ user, notAuthorityDelim c = true) →
      (∀ c ∈ host, hostNameChar c = true) →
      (∀ c ∈ port, isDigitC c = true) →
      (T = [] ∨ T.head? = some '/' ∨ T.head? = some '?') →
      (∀ c ∈ T, ¬ c = '#') →
      MockSQRLClient.canonicalizeSqrlUrl
          (String.mk (sch ++ ':' :: '/' :: '/' :: ((user ++ '@' :: (host ++ ':' :: port)) ++ T)))
        = String.mk (sch.map asciiLowerChar ++ ':' :: '/' :: '/' ::
            (host.map asciiLowerChar ++ T))) := by
  constructor
  · intro secure domain serverNut path hdne hdall hpath hnut
    have hcreate : SqrlUrlFactory.create secure domain serverNut (some path) none none
        = String.mk ((if secure then "sqrl" else "qrl").data ++ ':' :: '/' :: '/' ::
            (domain.data ++ (jsStripTrailingQuestion (jsEnsureLeadingSlash
              (jsDefaultedPath (some path)))
              ++ '?' :: 'n' :: 'u' :: 't' :: '=' :: serverNut.data))) := by
      apply strExt
      rw [create_data_no_opts]
    have hschfacts : ∀ a ∈ (if secure then "sqrl" else "qrl").data, ¬ a = ':' := by
      cases secure <;> decide
    have hAfacts : ∀ c ∈ domain.data, notAuthorityDelim c = true :=
      fun c hc => (domainNameChar_facts (hdall c hc)).2.1
    have hThead : jsStripTrailingQuestion (jsEnsureLeadingSlash (jsDefaultedPath (some path)))
          ++ '?' :: 'n' :: 'u' :: 't' :: '=' :: serverNut.data = []
        ∨ (jsStripTrailingQuestion (jsEnsureLeadingSlash (jsDefaultedPath (some path)))
          ++ '?' :: 'n' :: 'u' :: 't' :: '=' :: serverNut.data).head? = some '/'
        ∨ (jsStripTrailingQuestion (jsEnsureLeadingSlash (jsDefaultedPath (some path)))
          ++ '?' :: 'n' :: 'u' :: 't' :: '=' :: serverNut.data).head? = some '?' := by
      rcases jsStrip_head (jsEnsure_head (jsDefaultedPath (some path))) with h | ⟨t, h⟩
      · right; right
        rw [h]
        simp
      · right; left
        rw [h]
        simp
    have hTn : ∀ c ∈ jsStripTrailingQuestion (jsEnsureLeadingSlash (jsDefaultedPath (some path)))
        ++ '?' :: 'n' :: 'u' :: 't' :: '=' :: serverNut.data, ¬ c = '#' := by
      intro c hc
      rcases List.mem_append.mp hc with h | h
      · rcases jsEnsure_subset (jsStrip_subset h) with h1 | h1
        · subst h1; decide
        · exact hpath c (jsDefault_subset h1)
      · simp only [List.mem_cons] at h
        rcases h with h | h | h | h | h | h
        · subst h; decide
        · subst h; decide
        · subst h; decide
        · subst h; decide
        · subst h; decide
        · exact hnut c h
    have hshape := canonicalize_shape ((if secure then "sqrl" else "qrl").data) domain.data
      (jsStripTrailingQuestion (jsEnsureLeadingSlash (jsDefaultedPath (some path)))
        ++ '?' :: 'n' :: 'u' :: 't' :: '=' :: serverNut.data) hschfacts hAfacts hThead hTn
    have hafter : afterLastAt domain.data = domain.data :=
      afterLastAt_of_not_mem (fun a ha => (domainNameChar_facts (hdall a ha)).2.2.2.1)
    have htakecolon : domain.data.takeWhile (fun c => c ≠ ':') = domain.data := by
      apply List.takeWhile_eq_self_iff.mpr
      intro a ha
      simpa using (domainNameChar_facts (hdall a ha)).2.2.1
    have hmapdom : domain.data.map asciiLowerChar = domain.data :=
      map_asciiLower_fix (fun c hc => (domainNameChar_facts (hdall c hc)).1)
    have hmapsch : (((if secure then "sqrl" else "qrl").data) ++ [':']).map asciiLowerChar
        = ((if secure then "sqrl" else "qrl").data) ++ [':'] := by
      cases secure <;> decide
    rw [hafter, htakecolon, hmapdom, hmapsch] at hshape
    have h1 : MockSQRLClient.canonicalizeSqrlUrl
        (SqrlUrlFactory.create secure domain serverNut (some path) none none)
        = SqrlUrlFactory.create secure domain serverNut (some path) none none := by
      rw [hcreate, hshape]
      apply strExt
      simp [List.append_assoc]
    exact ⟨h1, by rw [h1]; exact h1⟩
  · intro sch user host port T hsch huser hhost hport hThead hTn
    have hA : ∀ c ∈ user ++ '@' :: (host ++ ':' :: port), notAuthorityDelim c = true := by
      intro c hc
      rcases List.mem_append.mp hc with h | h
      · exact huser c h
      · rcases List.mem_cons.mp h with h | h
        · subst h; decide
        · rcases List.mem_append.mp h with h | h
          · exact (hostNameChar_facts (hhost c h)).1
          · rcases List.mem_cons.mp h with h | h
            · subst h; decide
            · exact (isDigitC_facts (hport c h)).1
    have hshape := canonicalize_shape sch (user ++ '@' :: (host ++ ':' :: port)) T hsch hA
      hThead hTn
    have hafter : afterLastAt (user ++ '@' :: (host ++ ':' :: port)) = host ++ ':' :: port := by
      apply afterLastAt_append
      intro a ha
      rcases List.mem_append.mp ha with h | h
      · exact (hostNameChar_facts (hhost a h)).2.2
      · rcases List.mem_cons.mp h with h | h
        · subst h; decide
        · exact (isDigitC_facts (hport a h)).2
    have htake : (host ++ ':' :: port).takeWhile (fun c => c ≠ ':') = host := by
      rw [List.takeWhile_append_of_pos (by
        intro a ha
        simpa using (hostNameChar_facts (hhost a ha)).2.1)]
      rw [List.takeWhile_cons_of_neg (by simp)]
      simp
    rw [hafter, htake] at hshape
    rw [hshape]
    apply strExt
    have hlc : asciiLowerChar ':' = ':' := rfl
    simp [List.map_append, List.append_assoc, hlc]

theorem spec2proof_C5_witness :
    ("example.com" : String).data ≠ []
    ∧ (∀ c ∈ ("example.com" : String).data, domainNameChar c = true)
    ∧ (∀ c ∈ ("login" : String).data, ¬ c = '#')
    ∧ (∀ c ∈ ("abc123" : String).data, ¬ c = '#')
    ∧ MockSQRLClient.canonicalizeSqrlUrl
        (SqrlUrlFactory.create true "example.com" "abc123" (some "login") none none)
      = SqrlUrlFactory.create true "example.com" "abc123" (some "login") none none :=
  ⟨by decide, by decide, by decide, by decide,
    (spec2proof_C5.1 true "example.com" "abc123" "login" (by decide) (by decide)
      (by decide) (by decide)).1⟩

/-! ## Server response body decoding (src/unnamed/part_000 lines 39-105) -/

/-- Runtime failures of `parseServerBody`: JS TypeErrors from property access
on undefined, and the three `throw new Error(...)` statements. -/
inductive JsRuntimeError
  | typeError
  | malformedVersion (tok : String)
  | missingNut
  | missingTif
  | missingQry
deriving DecidableEq

def exceptIsOk {ε α : Type} : Except ε α → Bool
  | Except.ok _ => true
  | Except.error _ => false

/-- The inclusive JS loop `for (let i = lo; i <= hi; i++) push(i)`; a NaN bound
(`none`) produces nothing because NaN comparisons are false; `lo > hi` produces
nothing because the loop body never runs. -/
def jsRangeIncl : Option Int → Option Int → List (Option Int)
  | some lo, some hi => (List.range (hi + 1 - lo).toNat).map (fun k => some (lo + (k : Int)))
  | _, _ => []

/-- One `ver` token (lines 45-56): one split piece is a single number, two
pieces are an inclusive range, anything else throws the malformed-version
error.  The JS numbers pushed may be NaN, hence `Option Int` elements. -/
def tokenVersions (t : List Char) : Except JsRuntimeError (List (Option Int)) :=
  let parts := splitOnChar '-' t
  if parts.length = 1 then Except.ok [jsNumber (parts.headD [])]
  else if parts.length = 2 then
    Except.ok (jsRangeIncl (jsNumber (parts.headD [])) (jsNumber (parts.tail.headD [])))
  else Except.error (JsRuntimeError.malformedVersion (String.mk t))

/-- The `vers.forEach` loop: tokens are processed in order and the first bad
token aborts with its error. -/
def expandTokens : List (List Char) → Except JsRuntimeError (List (Option Int))
  | [] => Except.ok []
  | t :: rest =>
    match tokenVersions t with
    | Except.error e => Except.error e
    | Except.ok vs =>
      match expandTokens rest with
      | Except.error e => Except.error e
      | Except.ok vss => Except.ok (vs ++ vss)

/-- Version-range expansion of a whole `ver` value (lines 42-57). -/
def expandVer (ver : String) : Except JsRuntimeError (List (Option Int)) :=
  expandTokens (splitOnChar ',' ver.data)

/-- The name-value mapping produced for a server response body (the output of
`SqrlBodyParser.parseBase64CRLFSeparatedFields`, whose own source is outside
the shown files); a missing field is `none`, a field with an empty value is
`some ""`. -/
structure ServerProps where
  ver : Option String := none
  nut : Option String := none
  tif : Option String := none
  qry : Option String := none
  url : Option String := none
  sin : Option String := none
  suk : Option String := none
  ask : Option String := none
deriving DecidableEq

/-- Mirror of the `ServerResponseInfo` class fields set by `parseServerBody`. -/
structure ServerResponseInfo where
  supportedProtocolVersions : List (Option Int)
  nextNut : String
  tifValues : Option Int
  nextRequestPathAndQuery : String
  successfulAuthenticationRedirectUrl : Option String
  canceledAuthenticationRedirectUrl : Option String
  secretIndex : Option String
  serverUnlockKey : Option String
  askMessage : Option String
  askButton1Label : Option String
  askButton1Url : Option String
  askButton2Label : Option String
  askButton2Url : Option String
deriving DecidableEq

/-- The `ask` block of `parseServerBody` (lines 74-89): `parts[1]` is read
unconditionally, so a value without '~' makes `parts[1].split(';')` a
TypeError on undefined.  Returns (message, label1, url1, label2, url2). -/
def parseAskFields (ask : List Char) :
    Except JsRuntimeError
      (Option String × Option String × Option String × Option String × Option String) :=
  let parts := splitOnChar '~' ask
  match parts.get? 1 with
  | none => Except.error JsRuntimeError.typeError
  | some b1 =>
    let b1parts := splitOnChar ';' b1
    let u1 : Option String := if 1 < b1parts.length then (b1parts.get? 1).map String.mk else none
    let pair2 : Option String × Option String :=
      if 2 < parts.length then
        match parts.get? 2 with
        | some b2 =>
          let b2parts := splitOnChar ';' b2
          (some (String.mk (b2parts.headD [])),
            if 1 < b2parts.length then (b2parts.get? 1).map String.mk else none)
        | none => (none, none)
      else (none, none)
    Except.ok (some (String.mk (parts.headD [])), some (String.mk (b1parts.headD [])),
      u1, pair2.1, pair2.2)

/-- Shallow embedding of `MockSQRLClient.parseServerBody`, starting from the
decoded name-value mapping.  JS exceptions are modelled as `Except.error`:
`props.ver.split(',')` on an undefined `ver` is a TypeError, the required-field
checks throw, and the `ask` block may throw (see `parseAskFields`). -/
def MockSQRLClient.parseServerBody (props : ServerProps) :
    Except JsRuntimeError ServerResponseInfo :=
  if props.ver = none then Except.error JsRuntimeError.typeError
  else
    match expandVer (props.ver.getD "") with
    | Except.error e => Except.error e
    | Except.ok supportedVersions =>
      if jsTruthyOptStr props.nut = false then Except.error JsRuntimeError.missingNut
      else if jsTruthyOptStr props.tif = false then Except.error JsRuntimeError.missingTif
      else if jsTruthyOptStr props.qry = false then Except.error JsRuntimeError.missingQry
      else
        match (if jsTruthyOptStr props.ask then parseAskFields (props.ask.getD "").data
               else Except.ok (none, none, none, none, none)) with
        | Except.error e => Except.error e
        | Except.ok (m, l1, u1, l2, u2) =>
          Except.ok {
            supportedProtocolVersions := supportedVersions,
            nextNut := props.nut.getD "",
            tifValues := jsParseIntHex (props.tif.getD ""),
            nextRequestPathAndQuery := props.qry.getD "",
            successfulAuthenticationRedirectUrl := props.url,
            canceledAuthenticationRedirectUrl := none,
            secretIndex := props.sin,
            serverUnlockKey := props.suk,
            askMessage := m,
            askButton1Label := l1,
            askButton1Url := u1,
            askButton2Label := l2,
            askButton2Url := u2 }

instance exceptDecEq {e a : Type} [DecidableEq e] [DecidableEq a] :
    DecidableEq (Except e a) := fun x y =>
  match x, y with
  | Except.ok v, Except.ok w =>
    if h : v = w then isTrue (by rw [h])
    else isFalse (by intro hc; cases hc; exact h rfl)
  | Except.error v, Except.error w =>
    if h : v = w then isTrue (by rw [h])
    else isFalse (by intro hc; cases hc; exact h rfl)
  | Except.ok _, Except.error _ => isFalse (by intro hc; cases hc)
  | Except.error _, Except.ok _ => isFalse (by intro hc; cases hc)

theorem splitOnChar_ne_nil (c : Char) (l : List Char) : splitOnChar c l ≠ [] := by
  cases l with
  | nil => simp [splitOnChar]
  | cons x xs =>
    simp only [splitOnChar]
    split <;> simp

theorem splitOnChar_length (c : Char) (l : List Char) :
    (splitOnChar c l).length = l.count c + 1 := by
  induction l with
  | nil => simp [splitOnChar]
  | cons x xs ih =>
    simp only [splitOnChar]
    by_cases h : x = c
    · subst h
      rw [if_pos (by simp)]
      simp [List.count_cons, ih]
    · rw [if_neg (by simpa using h)]
      have hne := splitOnChar_ne_nil c xs
      rcases hr : splitOnChar c xs with _ | ⟨hd, tl⟩
      · exact absurd hr hne
      · rw [hr] at ih
        simp only [List.length_cons, List.tail_cons] at ih ⊢
        have hcnt : (x :: xs).count c = xs.count c := by
          simp [List.count_cons, h]
        omega

theorem splitOnChar_of_not_mem {c : Char} {l : List Char} (h : ∀ a ∈ l, ¬ a = c) :
    splitOnChar c l = [l] := by
  induction l with
  | nil => rfl
  | cons x xs ih =>
    simp only [splitOnChar]
    rw [if_neg (by simpa using h x (List.mem_cons_self x xs)),
      ih (fun a ha => h a (List.mem_cons_of_mem x ha))]
    rfl

theorem splitOnChar_append {c : Char} {xs ys : List Char} (h : ∀ a ∈ xs, ¬ a = c) :
    splitOnChar c (xs ++ c :: ys) = xs :: splitOnChar c ys := by
  induction xs with
  | nil =>
    simp only [List.nil_append, splitOnChar]
    rw [if_pos (by simp)]
  | cons x t ih =>
    simp only [List.cons_append, splitOnChar, List.append_eq]
    rw [if_neg (by simpa using h x (List.mem_cons_self x t)),
      ih (fun a ha => h a (List.mem_cons_of_mem x ha))]
    rfl

theorem isDigitC_ver_facts {c : Char} (h : isDigitC c = true) :
    ¬ c = ',' ∧ ¬ c = '-' ∧ ¬ c = '+' := by
  unfold isDigitC at h
  simp only [Bool.and_eq_true, decide_eq_true_eq] at h
  refine ⟨?_, ?_, ?_⟩
  · apply char_ne_of_toNat; have : Char.toNat ',' = 44 := rfl; omega
  · apply char_ne_of_toNat; have : Char.toNat '-' = 45 := rfl; omega
  · apply char_ne_of_toNat; have : Char.toNat '+' = 43 := rfl; omega

theorem jsNumber_digits {l : List Char} (hne : l ≠ []) (hd : ∀ c ∈ l, isDigitC c = true) :
    jsNumber l = some ((digitsToNat l : Int)) := by
  cases l with
  | nil => exact absurd rfl hne
  | cons x t =>
    have hx := hd x (List.mem_cons_self x t)
    have hplus : ¬ (x :: t).head? = some '+' := by
      simp only [List.head?_cons, Option.some.injEq]
      exact (isDigitC_ver_facts hx).2.2
    have hminus : ¬ (x :: t).head? = some '-' := by
      simp only [List.head?_cons, Option.some.injEq]
      exact (isDigitC_ver_facts hx).2.1
    unfold jsNumber
    rw [if_neg (by simp), if_neg hplus, if_neg hminus,
      if_pos (List.all_eq_true.mpr hd)]

theorem jsRangeIncl_empty {lo hi : Int} (h : hi < lo) :
    jsRangeIncl (some lo) (some hi) = [] := by
  simp only [jsRangeIncl]
  have h0 : (hi + 1 - lo).toNat = 0 := by omega
  rw [h0]
  rfl

theorem tokenVersions_err (t : List Char) :
    exceptIsOk (tokenVersions t) = false ↔ 2 ≤ t.count '-' := by
  unfold tokenVersions
  have hlen := splitOnChar_length '-' t
  by_cases h1 : (splitOnChar '-' t).length = 1
  · rw [if_pos h1]
    simp only [exceptIsOk]
    constructor
    · intro h; exact absurd h (by simp)
    · intro h; omega
  · rw [if_neg h1]
    by_cases h2 : (splitOnChar '-' t).length = 2
    · rw [if_pos h2]
      simp only [exceptIsOk]
      constructor
      · intro h; exact absurd h (by simp)
      · intro h; omega
    · rw [if_neg h2]
      simp only [exceptIsOk]
      constructor
      · intro _; omega
      · intro _; trivial

theorem expandTokens_err (ts : List (List Char)) :
    exceptIsOk (expandTokens ts) = false ↔ ∃ t ∈ ts, 2 ≤ t.count '-' := by
  induction ts with
  | nil => simp [expandTokens, exceptIsOk]
  | cons t rest ih =>
    unfold expandTokens
    cases htv : tokenVersions t with
    | error e =>
      have hbad : 2 ≤ t.count '-' := (tokenVersions_err t).mp (by rw [htv]; rfl)
      simp only [exceptIsOk]
      constructor
      · intro _
        exact ⟨t, List.mem_cons_self t rest, hbad⟩
      · intro _; trivial
    | ok vs =>
      have hgood : ¬ 2 ≤ t.count '-' := by
        intro hc
        have := (tokenVersions_err t).mpr hc
        rw [htv] at this
        exact absurd this (by simp [exceptIsOk])
      cases he : expandTokens rest with
      | error e =>
        have hrest : ∃ u ∈ rest, 2 ≤ u.count '-' := ih.mp (by rw [he]; rfl)
        simp only [exceptIsOk]
        constructor
        · intro _
          obtain ⟨u, hu, hc⟩ := hrest
          exact ⟨u, List.mem_cons_of_mem t hu, hc⟩
        · intro _; trivial
      | ok vss =>
        simp only [exceptIsOk]
        constructor
        · intro h; exact absurd h (by simp)
        · intro h
          obtain ⟨u, hu, hc⟩ := h
          rcases List.mem_cons.mp hu with h | h
          · subst h; exact absurd hc hgood
          · have : exceptIsOk (expandTokens rest) = false := ih.mpr ⟨u, h, hc⟩
            rw [he] at this
            exact absurd this (by simp [exceptIsOk])

/-- Claim C7 as frozen is false at `ver = "3"`: the token `"3"` contains zero
'-' characters, yet expansion succeeds with `[3]` instead of failing. -/
theorem spec2proof_C7_counterexample :
    expandVer "3" = Except.ok [some 3]
    ∧ ¬ (exceptIsOk (expandVer "3") = false
        ↔ ∃ t ∈ splitOnChar ',' ("3" : String).data,
            (t.count '-' = 0 ∨ 2 ≤ t.count '-')) := by
  constructor
  · decide
  · decide

/-- Claim C7 (amended): version-range expansion fails with the
malformed-version error exactly when some comma-separated token contains more
than one '-' character; a token with zero dashes is the single-integer case
and succeeds. -/
theorem spec2proof_C7 (s : String) :
    exceptIsOk (expandVer s) = false
      ↔ ∃ t ∈ splitOnChar ',' s.data, 2 ≤ t.count '-' :=
  expandTokens_err (splitOnChar ',' s.data)

/-- Successful run of `parseServerBody` when `ver` expands, the required
fields are present and there is no `ask` field. -/
theorem parseServerBody_ok_no_ask (props : ServerProps) (verStr : String)
    (vs : List (Option Int))
    (hver : props.ver = some verStr) (hexp : expandVer verStr = Except.ok vs)
    (hnut : jsTruthyOptStr props.nut = true) (htif : jsTruthyOptStr props.tif = true)
    (hqry : jsTruthyOptStr props.qry = true) (hask : props.ask = none) :
    MockSQRLClient.parseServerBody props = Except.ok
      { supportedProtocolVersions := vs,
        nextNut := props.nut.getD "",
        tifValues := jsParseIntHex (props.tif.getD ""),
        nextRequestPathAndQuery := props.qry.getD "",
        successfulAuthenticationRedirectUrl := props.url,
        canceledAuthenticationRedirectUrl := none,
        secretIndex := props.sin,
        serverUnlockKey := props.suk,
        askMessage := none, askButton1Label := none, askButton1Url := none,
        askButton2Label := none, askButton2Url := none } := by
  unfold MockSQRLClient.parseServerBody
  rw [hver, hask]
  simp only [Option.getD_some]
  rw [hexp]
  simp [hnut, htif, hqry, show jsTruthyOptStr none = false from rfl]

/-- Claim C9: a `ver` range token `lo-hi` with `lo > hi` contributes no
version numbers and raises no error, and a server body whose `ver` value is
exactly such a token parses successfully with an empty
`supportedProtocolVersions` list. -/
theorem spec2proof_C9 (a b : List Char) (props : ServerProps)
    (hane : a ≠ []) (hbne : b ≠ [])
    (hda : ∀ c ∈ a, isDigitC c = true) (hdb : ∀ c ∈ b, isDigitC c = true)
    (hlt : (digitsToNat b : Int) < (digitsToNat a : Int))
    (hver : props.ver = some (String.mk (a ++ '-' :: b)))
    (hnut : jsTruthyOptStr props.nut = true) (htif : jsTruthyOptStr props.tif = true)
    (hqry : jsTruthyOptStr props.qry = true) (hask : props.ask = none) :
    expandVer (String.mk (a ++ '-' :: b)) = Except.ok []
    ∧ ∃ r, MockSQRLClient.parseServerBody props = Except.ok r
        ∧ r.supportedProtocolVersions = [] := by
  have hnodash_a : ∀ c ∈ a, ¬ c = '-' := fun c hc => (isDigitC_ver_facts (hda c hc)).2.1
  have hnodash_b : ∀ c ∈ b, ¬ c = '-' := fun c hc => (isDigitC_ver_facts (hdb c hc)).2.1
  have hnocomma : ∀ c ∈ a ++ '-' :: b, ¬ c = ',' := by
    intro c hc
    rcases List.mem_append.mp hc with h | h
    · exact (isDigitC_ver_facts (hda c h)).1
    · rcases List.mem_cons.mp h with h | h
      · subst h; decide
      · exact (isDigitC_ver_facts (hdb c h)).1
  have htok : tokenVersions (a ++ '-' :: b) = Except.ok [] := by
    unfold tokenVersions
    rw [splitOnChar_append hnodash_a, splitOnChar_of_not_mem hnodash_b]
    rw [if_neg (by simp), if_pos (by simp)]
    simp only [List.headD_cons, List.tail_cons]
    rw [jsNumber_digits hane hda, jsNumber_digits hbne hdb, jsRangeIncl_empty hlt]
  have hexp : expandVer (String.mk (a ++ '-' :: b)) = Except.ok [] := by
    unfold expandVer
    rw [show (String.mk (a ++ '-' :: b)).data = a ++ '-' :: b from rfl]
    rw [splitOnChar_of_not_mem hnocomma]
    unfold expandTokens
    rw [htok]
    simp [expandTokens]
  refine ⟨hexp, ?_⟩
  refine ⟨_, parseServerBody_ok_no_ask props _ [] hver hexp hnut htif hqry hask, rfl⟩

/-- Claim C10: a present, non-empty `ask` value with no '~' separator (a bare
message with no button-label part) makes `parseServerBody` throw — `parts[1]`
is read unconditionally — rather than return a record with only the message. -/
theorem spec2proof_C10 (props : ServerProps) (s : String)
    (hask : props.ask = some s) (hs : ¬ s = "") (hnotilde : ∀ c ∈ s.data, ¬ c = '~') :
    ∃ e, MockSQRLClient.parseServerBody props = Except.error e := by
  unfold MockSQRLClient.parseServerBody
  by_cases hv : props.ver = none
  · rw [if_pos hv]
    exact ⟨_, rfl⟩
  · rw [if_neg hv]
    cases hexp : expandVer (props.ver.getD "") with
    | error e =>
      simp only [hexp]
      exact ⟨e, rfl⟩
    | ok vs =>
      simp only [hexp]
      by_cases hnut : jsTruthyOptStr props.nut = false
      · rw [if_pos hnut]
        exact ⟨_, rfl⟩
      · rw [if_neg hnut]
        by_cases htif : jsTruthyOptStr props.tif = false
        · rw [if_pos htif]
          exact ⟨_, rfl⟩
        · rw [if_neg htif]
          by_cases hqry : jsTruthyOptStr props.qry = false
          · rw [if_pos hqry]
            exact ⟨_, rfl⟩
          · rw [if_neg hqry]
            have htru : jsTruthyOptStr props.ask = true := by
              rw [hask]
              simp [jsTruthyOptStr, hs]
            have haskerr : parseAskFields ((props.ask.getD "") : String).data
                = Except.error JsRuntimeError.typeError := by
              rw [hask]
              simp only [Option.getD_some]
              unfold parseAskFields
              rw [splitOnChar_of_not_mem hnotilde]
              rfl
            rw [if_pos htru, haskerr]
            exact ⟨_, rfl⟩

theorem spec2proof_C9_witness :
    expandVer (String.mk (['5'] ++ '-' :: ['3'])) = Except.ok []
    ∧ ∃ r, MockSQRLClient.parseServerBody
        { ver := some "5-3", nut := some "n", tif := some "41", qry := some "/q" }
        = Except.ok r ∧ r.supportedProtocolVersions = [] :=
  spec2proof_C9 ['5'] ['3']
    { ver := some "5-3", nut := some "n", tif := some "41", qry := some "/q" }
    (by decide) (by decide) (by decide) (by decide) (by decide)
    (by decide) (by decide) (by decide) (by decide) (by decide)

theorem spec2proof_C10_witness :
    ¬ ("hello" : String) = ""
    ∧ (∀ c ∈ ("hello" : String).data, ¬ c = '~')
    ∧ ∃ e, MockSQRLClient.parseServerBody
        { ver := some "1", nut := some "n", tif := some "41", qry := some "/q",
          ask := some "hello" } = Except.error e :=
  ⟨by decide, by decide,
    spec2proof_C10
      { ver := some "1", nut := some "n", tif := some "41", qry := some "/q",
        ask := some "hello" }
      "hello" rfl (by decide) (by decide)⟩

/-! ## Test site identity / nut state machine (src/src/testSite/TestSiteHandler.ts) -/

/-- TIF flag values (src/unnamed/part_000, enum TIFFlags). -/
def TIFFlags.CurrentIDMatch : Nat := 0x01

def TIFFlags.PreviousIDMatch : Nat := 0x02

def TIFFlags.IPAddressesMatch : Nat := 0x04

def TIFFlags.IDDisabled : Nat := 0x08

def TIFFlags.FunctionNotSupported : Nat := 0x10

def TIFFlags.TransientError : Nat := 0x20

def TIFFlags.CommandFailed : Nat := 0x40

def TIFFlags.ClientFailure : Nat := 0x80

def TIFFlags.BadIDAssociation : Nat := 0x100

/-- The parsed client request fields consumed by the test-site handlers. -/
structure ClientRequestInfo where
  sqrlCommand : String
  primaryIdentityPublicKey : String
  previousIdentityPublicKey : Option String := none
  serverUnlockPublicKey : Option String := none
  serverVerifyUnlockPublicKey : Option String := none
  useSqrlIdentityOnly : Bool := false
  hardLockSqrlUse : Bool := false
  clientProvidedSession : Bool := false
  returnSessionUnlockKey : Bool := false
deriving DecidableEq

/-- A user document (class UserDBRecord, lines 414-462).  The previous-key
list is optional because the code guards `if (!user.sqrlPreviousIdentityPublicKeys)`;
its elements are optional strings because the rotation path pushes the raw
`previousIdentityPublicKey` value. -/
structure UserDBRecord where
  name : Option String := none
  sqrlPrimaryIdentityPublicKey : String
  sqrlPreviousIdentityPublicKeys : Option (List (Option String)) := some []
  sqrlServerUnlockPublicKey : Option String := none
  sqrlServerVerifyUnlockPublicKey : Option String := none
  sqrlUseSqrlIdentityOnly : Bool := false
  sqrlHardLockSqrlUse : Bool := false
deriving DecidableEq

/-- A nut document (class NutDBRecord, lines 464-488); `createdAt` stands in
for the Date value. -/
structure NutDBRecord where
  nut : String
  url : Option String := none
  originalLoginNut : Option String := none
  createdAt : Nat := 0
  loggedIn : Bool := false
  clientPrimaryIdentityPublicKey : Option String := none
deriving DecidableEq

/-- The value held in `AuthCompletionInfo.user`: a user document, or — after
the promisified NeDB `updateAsync` resolves — the numeric update count that
line 271 stores there (the repository's own module declaration types
`updateAsync` as `Promise<number>`). -/
inductive UserValue
  | record (u : UserDBRecord)
  | count (n : Nat)
deriving DecidableEq

/-- Reading `.sqrlPrimaryIdentityPublicKey` off an `authInfo.user` value as JS
does: the property access on a number yields undefined. -/
def userValueKey : Option UserValue → Option String
  | some (UserValue.record u) => some u.sqrlPrimaryIdentityPublicKey
  | some (UserValue.count _) => none
  | none => none

/-- Modelled from the spec: the `AuthCompletionInfo` class lives in the
passport-sqrl index module, which is not among the shown sources; per the
spec's TIF engine description (§4.6) the bitmask starts at zero and the user
and session-unlock fields start unset, matching how `findUserByEitherKey`
uses `|=` on a fresh instance. -/
structure AuthCompletionInfo where
  user : Option UserValue := none
  tifValues : Nat := 0
  sessionUnlockKey : Option String := none
deriving DecidableEq

/-- NeDB `findOneAsync`: one matching document or null.  NeDB gives no
ordering guarantee among several matches (documents sit in an index keyed by
random generated ids); the model determinizes to the first match in table
order, one of the behaviours the store permits. -/
def nedbFindOne {α : Type} (table : List α) (p : α → Bool) : Option α :=
  table.find? p

/-- NeDB `updateAsync` with default options (multi false): replaces the first
matching document and resolves to the number of replaced documents. -/
def nedbUpdateOne {α : Type} (table : List α) (p : α → Bool) (repl : α) :
    Nat × List α :=
  match table with
  | [] => (0, [])
  | x :: xs =>
    if p x then (1, repl :: xs)
    else
      let r := nedbUpdateOne xs p repl
      (r.1, x :: r.2)

/-- The `$or` predicate built at lines 328-336: primary key equals the
request's current key, or — when a previous key is present (truthy) — equals
the previous key. -/
def eitherKeyMatch (cri : ClientRequestInfo) (d : UserDBRecord) : Bool :=
  d.sqrlPrimaryIdentityPublicKey == cri.primaryIdentityPublicKey
  || (jsTruthyOptStr cri.previousIdentityPublicKey
      && d.sqrlPrimaryIdentityPublicKey == cri.previousIdentityPublicKey.getD "")

/-- Shallow embedding of `TestSiteHandler.findUserByEitherKey` (lines 325-349). -/
def TestSiteHandler.findUserByEitherKey (userTable : List UserDBRecord)
    (cri : ClientRequestInfo) : AuthCompletionInfo :=
  match nedbFindOne userTable (eitherKeyMatch cri) with
  | none => {}
  | some doc =>
    if doc.sqrlPrimaryIdentityPublicKey == cri.primaryIdentityPublicKey then
      { user := some (UserValue.record doc), tifValues := 0 ||| TIFFlags.CurrentIDMatch }
    else
      { user := some (UserValue.record doc), tifValues := 0 ||| TIFFlags.PreviousIDMatch }

/-- Shallow embedding of `UserDBRecord.newFromClientRequestInfo` (lines 415-430). -/
def UserDBRecord.newFromClientRequestInfo (cri : ClientRequestInfo) : UserDBRecord :=
  let base : UserDBRecord :=
    { sqrlPrimaryIdentityPublicKey := cri.primaryIdentityPublicKey,
      sqrlPreviousIdentityPublicKeys := some [],
      sqrlServerUnlockPublicKey := cri.serverUnlockPublicKey,
      sqrlServerVerifyUnlockPublicKey := cri.serverVerifyUnlockPublicKey,
      sqrlUseSqrlIdentityOnly := cri.useSqrlIdentityOnly,
      sqrlHardLockSqrlUse := cri.hardLockSqrlUse }
  if jsTruthyOptStr cri.previousIdentityPublicKey then
    { base with sqrlPreviousIdentityPublicKeys := some [cri.previousIdentityPublicKey] }
  else base

/-- Shallow embedding of `TestSiteHandler.getNutRecordAsync` (lines 311-315). -/
def TestSiteHandler.getNutRecord (nutTable : List NutDBRecord) (nut : String) :
    Option NutDBRecord :=
  nedbFindOne nutTable (fun r => r.nut == nut)

/-- First half of `TestSiteHandler.ident` (lines 255-279): find the user by
either key; on `PreviousIDMatch` rotate the record in place and update it
(the promisified `updateAsync` resolves to a number, which line 271 stores
into `authInfo.user`); otherwise create an initial record and zero the TIF
bits.  The create branch is reached exactly when `authInfo.user` is falsy;
`findUserByEitherKey` only ever returns a record there or leaves it unset. -/
def TestSiteHandler.identUserStep (userTable : List UserDBRecord)
    (cri : ClientRequestInfo) : AuthCompletionInfo × List UserDBRecord :=
  let authInfo := TestSiteHandler.findUserByEitherKey userTable cri
  match authInfo.user with
  | some (UserValue.record user) =>
    if authInfo.tifValues &&& TIFFlags.PreviousIDMatch ≠ 0 then
      let prevs : List (Option String) :=
        match user.sqrlPreviousIdentityPublicKeys with
        | none => []
        | some l => l
      let user1 : UserDBRecord :=
        { user with
          sqrlPreviousIdentityPublicKeys := some (prevs ++ [cri.previousIdentityPublicKey])
          sqrlPrimaryIdentityPublicKey := cri.primaryIdentityPublicKey }
      let upd := nedbUpdateOne userTable
        (fun d => match cri.previousIdentityPublicKey with
          | some p => d.sqrlPrimaryIdentityPublicKey == p
          | none => false)
        user1
      ({ authInfo with user := some (UserValue.count upd.1) }, upd.2)
    else (authInfo, userTable)
  | _ =>
    let newRecord := UserDBRecord.newFromClientRequestInfo cri
    ({ authInfo with user := some (UserValue.record newRecord), tifValues := 0 },
      userTable ++ [newRecord])

/-- Second half of `TestSiteHandler.ident` (lines 281-293): resolve the nut
record to mutate — following `originalLoginNut` when set — and, when found,
mark it logged in and store the key read off `authInfo.user`; when the
original cannot be found, mutate nothing. -/
def TestSiteHandler.identNutStep (nutTable : List NutDBRecord) (nutInfo : NutDBRecord)
    (authInfo2 : AuthCompletionInfo) : List NutDBRecord :=
  let originalNutRecord : Option NutDBRecord :=
    if jsTruthyOptStr nutInfo.originalLoginNut then
      TestSiteHandler.getNutRecord nutTable (nutInfo.originalLoginNut.getD "")
    else some nutInfo
  match originalNutRecord with
  | none => nutTable
  | some onr =>
    let onr1 : NutDBRecord :=
      { onr with
        loggedIn := true
        clientPrimaryIdentityPublicKey := userValueKey authInfo2.user }
    (nedbUpdateOne nutTable (fun r => r.nut == onr1.nut) onr1).2

/-- Shallow embedding of `TestSiteHandler.ident` (lines 255-294): the user
step followed by the nut step; returns the `AuthCompletionInfo` and the two
mutated tables. -/
def TestSiteHandler.ident (userTable : List UserDBRecord) (nutTable : List NutDBRecord)
    (cri : ClientRequestInfo) (nutInfo : NutDBRecord) :
    AuthCompletionInfo × List UserDBRecord × List NutDBRecord :=
  let step1 := TestSiteHandler.identUserStep userTable cri
  (step1.1, step1.2, TestSiteHandler.identNutStep nutTable nutInfo step1.1)

/-- Outcome of one GET on the `/pollNut/:nut` route. -/
inductive NutPollOutcome
  | notFound404
  | pending
  | success (loggedIn : Bool) (user : Option UserDBRecord) (redirectTo : String)
deriving DecidableEq

/-- Shallow embedding of the `/pollNut/:nut` route handler (lines 147-191):
absent route parameter or unknown nut → 404; a record that is not logged in
or whose client key is unset (falsy) → the pending body `{loggedIn: false}`;
otherwise the user record is looked up and the poll reports the record's
`loggedIn` flag plus the login-success redirect. -/
def TestSiteHandler.pollNutHandler (nutParam : Option String)
    (nutTable : List NutDBRecord) (userTable : List UserDBRecord) : NutPollOutcome :=
  if jsTruthyOptStr nutParam then
    match TestSiteHandler.getNutRecord nutTable (nutParam.getD "") with
    | none => NutPollOutcome.notFound404
    | some nutRecord =>
      if !nutRecord.loggedIn || !(jsTruthyOptStr nutRecord.clientPrimaryIdentityPublicKey) then
        NutPollOutcome.pending
      else
        NutPollOutcome.success nutRecord.loggedIn
          (nedbFindOne userTable (fun d =>
            d.sqrlPrimaryIdentityPublicKey == nutRecord.clientPrimaryIdentityPublicKey.getD ""))
          "/"
  else NutPollOutcome.notFound404

theorem nedbUpdateOne_preserves {α : Type} {table : List α} {p : α → Bool} {repl x : α}
    (hx : x ∈ table) (hpx : p x = false) : x ∈ (nedbUpdateOne table p repl).2 := by
  induction table with
  | nil => simp at hx
  | cons y ys ih =>
    rcases List.mem_cons.mp hx with h | h
    · subst h
      simp only [nedbUpdateOne]
      rw [if_neg (by simp [hpx])]
      exact List.mem_cons_self x _
    · simp only [nedbUpdateOne]
      by_cases hy : p y = true
      · rw [if_pos hy]
        exact List.mem_cons_of_mem repl h
      · rw [if_neg hy]
        exact List.mem_cons_of_mem y (ih h)

theorem nedbUpdateOne_mem_repl {α : Type} {table : List α} {p : α → Bool} {repl x : α}
    (hx : x ∈ table) (hpx : p x = true) : repl ∈ (nedbUpdateOne table p repl).2 := by
  induction table with
  | nil => simp at hx
  | cons y ys ih =>
    simp only [nedbUpdateOne]
    by_cases hy : p y = true
    · rw [if_pos hy]
      exact List.mem_cons_self repl ys
    · rw [if_neg hy]
      rcases List.mem_cons.mp hx with h | h
      · subst h
        exact absurd hpx hy
      · exact List.mem_cons_of_mem y (ih h)

/-- Claim C1 evaluated at the failing input: stored identity with primary key
"A"; `ident` request with current key "B" and previous key "A"; nut "n1".
The returned TIF carries `PreviousIDMatch`, the stored identity becomes
primary "B" with "A" appended to its previous-key list, and the nut is marked
`loggedIn` — but its `clientPrimaryIdentityPublicKey` is left undefined (not
"B"): line 271 stores the `updateAsync` count into `authInfo.user`, so
line 290 reads `.sqrlPrimaryIdentityPublicKey` off a number. -/
theorem spec2proof_C1 :
    TestSiteHandler.ident
        [{ sqrlPrimaryIdentityPublicKey := "A", sqrlServerUnlockPublicKey := some "suk" }]
        [{ nut := "n1" }]
        { sqrlCommand := "ident", primaryIdentityPublicKey := "B",
          previousIdentityPublicKey := some "A" }
        { nut := "n1" }
      = ({ user := some (UserValue.count 1), tifValues := TIFFlags.PreviousIDMatch },
         [{ sqrlPrimaryIdentityPublicKey := "B",
            sqrlPreviousIdentityPublicKeys := some [some "A"],
            sqrlServerUnlockPublicKey := some "suk" }],
         [{ nut := "n1", loggedIn := true, clientPrimaryIdentityPublicKey := none }])
    ∧ ¬ (TestSiteHandler.ident
        [{ sqrlPrimaryIdentityPublicKey := "A", sqrlServerUnlockPublicKey := some "suk" }]
        [{ nut := "n1" }]
        { sqrlCommand := "ident", primaryIdentityPublicKey := "B",
          previousIdentityPublicKey := some "A" }
        { nut := "n1" }).2.2
      = [{ nut := "n1", loggedIn := true, clientPrimaryIdentityPublicKey := some "B" }] := by
  constructor
  · decide
  · decide

/-- Claim C2 as frozen is false: with stored identities "A" (first) and "B"
(second) and a request presenting current key "B" and previous key "A", the
lookup returns the "A" record (NeDB's `findOne` gives no preference to the
current key among `$or` matches), so `PreviousIDMatch` is set and
`CurrentIDMatch` is not — although a stored record's primary key equals the
request's current key. -/
theorem spec2proof_C2_counterexample :
    (TestSiteHandler.findUserByEitherKey
        [{ sqrlPrimaryIdentityPublicKey := "A" }, { sqrlPrimaryIdentityPublicKey := "B" }]
        { sqrlCommand := "query", primaryIdentityPublicKey := "B",
          previousIdentityPublicKey := some "A" }).tifValues = TIFFlags.PreviousIDMatch
    ∧ ({ sqrlPrimaryIdentityPublicKey := "B" } : UserDBRecord)
        ∈ [({ sqrlPrimaryIdentityPublicKey := "A" } : UserDBRecord),
           { sqrlPrimaryIdentityPublicKey := "B" }]
    ∧ ({ sqrlPrimaryIdentityPublicKey := "B" } : UserDBRecord).sqrlPrimaryIdentityPublicKey
        = ({ sqrlCommand := "query", primaryIdentityPublicKey := "B",
             previousIdentityPublicKey := some "A" } : ClientRequestInfo).primaryIdentityPublicKey
    ∧ (TestSiteHandler.findUserByEitherKey
        [{ sqrlPrimaryIdentityPublicKey := "A" }, { sqrlPrimaryIdentityPublicKey := "B" }]
        { sqrlCommand := "query", primaryIdentityPublicKey := "B",
          previousIdentityPublicKey := some "A" }).tifValues &&& TIFFlags.CurrentIDMatch
      = 0 := by
  refine ⟨?_, ?_, ?_, ?_⟩ <;> decide

/-- Claim C2 (amended): the lookup sets exactly `CurrentIDMatch` when the
record it finds has the request's current key as primary key, exactly
`PreviousIDMatch` when the found record was matched through the previous key,
and neither bit when no record matches either key; the two bits are never
both set.  (When distinct records match the current and the previous key, the
store returns one of them with its single corresponding bit — not necessarily
the current-key record.) -/
theorem spec2proof_C2 (userTable : List UserDBRecord) (cri : ClientRequestInfo) :
    ((TestSiteHandler.findUserByEitherKey userTable cri).tifValues = 0
      ∨ (TestSiteHandler.findUserByEitherKey userTable cri).tifValues = TIFFlags.CurrentIDMatch
      ∨ (TestSiteHandler.findUserByEitherKey userTable cri).tifValues = TIFFlags.PreviousIDMatch)
    ∧ (nedbFindOne userTable (eitherKeyMatch cri) = none →
        (TestSiteHandler.findUserByEitherKey userTable cri).tifValues = 0
        ∧ (TestSiteHandler.findUserByEitherKey userTable cri).user = none)
    ∧ (∀ doc, nedbFindOne userTable (eitherKeyMatch cri) = some doc →
        (TestSiteHandler.findUserByEitherKey userTable cri).user
            = some (UserValue.record doc)
        ∧ (doc.sqrlPrimaryIdentityPublicKey = cri.primaryIdentityPublicKey →
            (TestSiteHandler.findUserByEitherKey userTable cri).tifValues
              = TIFFlags.CurrentIDMatch)
        ∧ (¬ doc.sqrlPrimaryIdentityPublicKey = cri.primaryIdentityPublicKey →
            (TestSiteHandler.findUserByEitherKey userTable cri).tifValues
              = TIFFlags.PreviousIDMatch
            ∧ jsTruthyOptStr cri.previousIdentityPublicKey = true
            ∧ doc.sqrlPrimaryIdentityPublicKey
                = cri.previousIdentityPublicKey.getD "")) := by
  cases hf : nedbFindOne userTable (eitherKeyMatch cri) with
  | none =>
    refine ⟨Or.inl ?_, fun _ => ⟨?_, ?_⟩, ?_⟩
    · simp [TestSiteHandler.findUserByEitherKey, hf]
    · simp [TestSiteHandler.findUserByEitherKey, hf]
    · simp [TestSiteHandler.findUserByEitherKey, hf]
    · intro doc hdoc
      exact Option.noConfusion hdoc
  | some doc0 =>
    have hmatch : eitherKeyMatch cri doc0 = true := List.find?_some hf
    by_cases hk : doc0.sqrlPrimaryIdentityPublicKey = cri.primaryIdentityPublicKey
    · have hkb : (doc0.sqrlPrimaryIdentityPublicKey == cri.primaryIdentityPublicKey) = true := by
        simpa using hk
      refine ⟨Or.inr (Or.inl ?_), fun hn => Option.noConfusion hn, ?_⟩
      · simp [TestSiteHandler.findUserByEitherKey, hf, hkb]
      · intro doc hdoc
        cases hdoc
        refine ⟨?_, fun _ => ?_, fun hcontra => absurd hk hcontra⟩
        · simp [TestSiteHandler.findUserByEitherKey, hf, hkb]
        · simp [TestSiteHandler.findUserByEitherKey, hf, hkb]
    · have hkb : (doc0.sqrlPrimaryIdentityPublicKey == cri.primaryIdentityPublicKey) = false := by
        simpa using hk
      have hprev : jsTruthyOptStr cri.previousIdentityPublicKey = true
          ∧ doc0.sqrlPrimaryIdentityPublicKey = cri.previousIdentityPublicKey.getD "" := by
        unfold eitherKeyMatch at hmatch
        rw [hkb] at hmatch
        simp only [Bool.false_or, Bool.and_eq_true, beq_iff_eq] at hmatch
        exact hmatch
      refine ⟨Or.inr (Or.inr ?_), fun hn => Option.noConfusion hn, ?_⟩
      · simp [TestSiteHandler.findUserByEitherKey, hf, hkb]
      · intro doc hdoc
        cases hdoc
        refine ⟨?_, fun hcontra => absurd hcontra hk, fun _ => ⟨?_, hprev.1, hprev.2⟩⟩
        · simp [TestSiteHandler.findUserByEitherKey, hf, hkb]
        · simp [TestSiteHandler.findUserByEitherKey, hf, hkb]

theorem spec2proof_C2_witness :
    nedbFindOne [({ sqrlPrimaryIdentityPublicKey := "A" } : UserDBRecord)]
        (eitherKeyMatch { sqrlCommand := "query", primaryIdentityPublicKey := "A" })
      = some { sqrlPrimaryIdentityPublicKey := "A" }
    ∧ (TestSiteHandler.findUserByEitherKey [{ sqrlPrimaryIdentityPublicKey := "A" }]
        { sqrlCommand := "query", primaryIdentityPublicKey := "A" }).tifValues
      = TIFFlags.CurrentIDMatch :=
  ⟨by decide,
    ((spec2proof_C2 [{ sqrlPrimaryIdentityPublicKey := "A" }]
        { sqrlCommand := "query", primaryIdentityPublicKey := "A" }).2.2
      { sqrlPrimaryIdentityPublicKey := "A" } (by decide)).2.1 (by decide)⟩

theorem identUserStep_user_isSome (userTable : List UserDBRecord) (cri : ClientRequestInfo) :
    ((TestSiteHandler.identUserStep userTable cri).1).user.isSome = true := by
  simp only [TestSiteHandler.identUserStep]
  cases hu : (TestSiteHandler.findUserByEitherKey userTable cri).user with
  | none => simp [hu]
  | some uv =>
    cases uv with
    | record u =>
      simp only [hu]
      split <;> simp [hu]
    | count n => simp [hu]

theorem identNutStep_orig_none (nutTable : List NutDBRecord) (nutInfo : NutDBRecord)
    (a : AuthCompletionInfo)
    (htr : jsTruthyOptStr nutInfo.originalLoginNut = true)
    (hfind : TestSiteHandler.getNutRecord nutTable (nutInfo.originalLoginNut.getD "") = none) :
    TestSiteHandler.identNutStep nutTable nutInfo a = nutTable := by
  simp only [TestSiteHandler.identNutStep]
  rw [if_pos htr, hfind]

theorem identNutStep_orig_some (nutTable : List NutDBRecord) (nutInfo : NutDBRecord)
    (a : AuthCompletionInfo) (orig : NutDBRecord)
    (htr : jsTruthyOptStr nutInfo.originalLoginNut = true)
    (hfind : TestSiteHandler.getNutRecord nutTable (nutInfo.originalLoginNut.getD "")
      = some orig) :
    TestSiteHandler.identNutStep nutTable nutInfo a
      = (nedbUpdateOne nutTable (fun r => r.nut == orig.nut)
          { orig with loggedIn := true, clientPrimaryIdentityPublicKey := userValueKey a.user }).2 := by
  simp only [TestSiteHandler.identNutStep]
  rw [if_pos htr, hfind]

/-- Claim C3: when the polled nut record carries an `originalLoginNut` link,
completing an `ident` login resolves to and mutates the original nut's record
(marking it logged in and storing the key read off the auth result) while any
record with a different nut — in particular the later one — is untouched; when
the original record cannot be found, no nut is mutated and the call still
returns its auth result (no error path exists here). -/
theorem spec2proof_C3 (userTable : List UserDBRecord) (nutTable : List NutDBRecord)
    (cri : ClientRequestInfo) (nutInfo : NutDBRecord)
    (htr : jsTruthyOptStr nutInfo.originalLoginNut = true) :
    (TestSiteHandler.getNutRecord nutTable (nutInfo.originalLoginNut.getD "") = none →
      (TestSiteHandler.ident userTable nutTable cri nutInfo).2.2 = nutTable
      ∧ ((TestSiteHandler.ident userTable nutTable cri nutInfo).1.user).isSome = true)
    ∧ (∀ orig, TestSiteHandler.getNutRecord nutTable (nutInfo.originalLoginNut.getD "")
          = some orig →
        (TestSiteHandler.ident userTable nutTable cri nutInfo).2.2
          = (nedbUpdateOne nutTable (fun r => r.nut == orig.nut)
              { orig with
                loggedIn := true
                clientPrimaryIdentityPublicKey :=
                  userValueKey (TestSiteHandler.ident userTable nutTable cri nutInfo).1.user }).2
        ∧ ({ orig with
              loggedIn := true
              clientPrimaryIdentityPublicKey :=
                userValueKey (TestSiteHandler.ident userTable nutTable cri nutInfo).1.user }
            ∈ (TestSiteHandler.ident userTable nutTable cri nutInfo).2.2)
        ∧ (∀ r ∈ nutTable, ¬ r.nut = orig.nut →
            r ∈ (TestSiteHandler.ident userTable nutTable cri nutInfo).2.2)
        ∧ ((TestSiteHandler.ident userTable nutTable cri nutInfo).1.user).isSome = true) := by
  have hid : (TestSiteHandler.ident userTable nutTable cri nutInfo).2.2
      = TestSiteHandler.identNutStep nutTable nutInfo
          (TestSiteHandler.identUserStep userTable cri).1 := rfl
  have hid1 : (TestSiteHandler.ident userTable nutTable cri nutInfo).1
      = (TestSiteHandler.identUserStep userTable cri).1 := rfl
  constructor
  · intro hfind
    constructor
    · rw [hid, identNutStep_orig_none _ _ _ htr hfind]
    · rw [hid1]
      exact identUserStep_user_isSome userTable cri
  · intro orig hfind
    have hupd := identNutStep_orig_some nutTable nutInfo
      (TestSiteHandler.identUserStep userTable cri).1 orig htr hfind
    have hmem : orig ∈ nutTable := List.mem_of_find?_eq_some hfind
    refine ⟨?_, ?_, ?_, ?_⟩
    · rw [hid, hid1, hupd]
    · rw [hid, hid1, hupd]
      exact nedbUpdateOne_mem_repl hmem (by simp)
    · intro r hr hne
      rw [hid, hupd]
      exact nedbUpdateOne_preserves hr (by simpa using hne)
    · rw [hid1]
      exact identUserStep_user_isSome userTable cri

theorem spec2proof_C3_witness :
    jsTruthyOptStr ({ nut := "n2", originalLoginNut := some "n0" } : NutDBRecord).originalLoginNut
      = true
    ∧ TestSiteHandler.getNutRecord [{ nut := "n0" }, { nut := "n2", originalLoginNut := some "n0" }]
        ((({ nut := "n2", originalLoginNut := some "n0" } : NutDBRecord).originalLoginNut).getD "")
      = some { nut := "n0" }
    ∧ ({ ({ nut := "n0" } : NutDBRecord) with
          loggedIn := true
          clientPrimaryIdentityPublicKey :=
            userValueKey (TestSiteHandler.ident []
              [{ nut := "n0" }, { nut := "n2", originalLoginNut := some "n0" }]
              { sqrlCommand := "ident", primaryIdentityPublicKey := "C" }
              { nut := "n2", originalLoginNut := some "n0" }).1.user }
        ∈ (TestSiteHandler.ident []
            [{ nut := "n0" }, { nut := "n2", originalLoginNut := some "n0" }]
            { sqrlCommand := "ident", primaryIdentityPublicKey := "C" }
            { nut := "n2", originalLoginNut := some "n0" }).2.2) :=
  ⟨by decide, by decide,
    ((spec2proof_C3 []
        [{ nut := "n0" }, { nut := "n2", originalLoginNut := some "n0" }]
        { sqrlCommand := "ident", primaryIdentityPublicKey := "C" }
        { nut := "n2", originalLoginNut := some "n0" } (by decide)).2
      { nut := "n0" } (by decide)).2.1⟩

theorem newFromClientRequestInfo_fields (cri : ClientRequestInfo) :
    (UserDBRecord.newFromClientRequestInfo cri).sqrlPrimaryIdentityPublicKey
        = cri.primaryIdentityPublicKey
    ∧ (UserDBRecord.newFromClientRequestInfo cri).sqrlServerUnlockPublicKey
        = cri.serverUnlockPublicKey
    ∧ (UserDBRecord.newFromClientRequestInfo cri).sqrlServerVerifyUnlockPublicKey
        = cri.serverVerifyUnlockPublicKey
    ∧ (UserDBRecord.newFromClientRequestInfo cri).sqrlUseSqrlIdentityOnly
        = cri.useSqrlIdentityOnly
    ∧ (UserDBRecord.newFromClientRequestInfo cri).sqrlHardLockSqrlUse
        = cri.hardLockSqrlUse := by
  unfold UserDBRecord.newFromClientRequestInfo
  split
  · exact ⟨rfl, rfl, rfl, rfl, rfl⟩
  · exact ⟨rfl, rfl, rfl, rfl, rfl⟩

/-- Claim C4: an `ident` request whose current key and (when present) previous
key match no stored identity creates a fresh identity record from the
request's current key, unlock keys and option flags, and returns TIF 0. -/
theorem spec2proof_C4 (userTable : List UserDBRecord) (nutTable : List NutDBRecord)
    (cri : ClientRequestInfo) (nutInfo : NutDBRecord)
    (hnone : ∀ d ∈ userTable,
      ¬ d.sqrlPrimaryIdentityPublicKey = cri.primaryIdentityPublicKey
      ∧ (∀ p, cri.previousIdentityPublicKey = some p →
          ¬ d.sqrlPrimaryIdentityPublicKey = p)) :
    (TestSiteHandler.ident userTable nutTable cri nutInfo).1.tifValues = 0
    ∧ (TestSiteHandler.ident userTable nutTable cri nutInfo).2.1
        = userTable ++ [UserDBRecord.newFromClientRequestInfo cri]
    ∧ (TestSiteHandler.ident userTable nutTable cri nutInfo).1.user
        = some (UserValue.record (UserDBRecord.newFromClientRequestInfo cri))
    ∧ (UserDBRecord.newFromClientRequestInfo cri).sqrlPrimaryIdentityPublicKey
        = cri.primaryIdentityPublicKey
    ∧ (UserDBRecord.newFromClientRequestInfo cri).sqrlServerUnlockPublicKey
        = cri.serverUnlockPublicKey
    ∧ (UserDBRecord.newFromClientRequestInfo cri).sqrlServerVerifyUnlockPublicKey
        = cri.serverVerifyUnlockPublicKey
    ∧ (UserDBRecord.newFromClientRequestInfo cri).sqrlUseSqrlIdentityOnly
        = cri.useSqrlIdentityOnly
    ∧ (UserDBRecord.newFromClientRequestInfo cri).sqrlHardLockSqrlUse
        = cri.hardLockSqrlUse := by
  have hekm : ∀ d ∈ userTable, eitherKeyMatch cri d = false := by
    intro d hd
    obtain ⟨h1, h2⟩ := hnone d hd
    unfold eitherKeyMatch
    cases hp : cri.previousIdentityPublicKey with
    | none => simp [jsTruthyOptStr, hp, h1]
    | some p =>
      by_cases hpe : p = ""
      · subst hpe
        simp [jsTruthyOptStr, hp, h1]
      · simp [jsTruthyOptStr, hp, h1, hpe, h2 p hp]
  have hfind : nedbFindOne userTable (eitherKeyMatch cri) = none := by
    unfold nedbFindOne
    exact List.find?_eq_none.mpr (fun d hd => by simp [hekm d hd])
  have hfue : TestSiteHandler.findUserByEitherKey userTable cri = {} := by
    unfold TestSiteHandler.findUserByEitherKey
    rw [hfind]
  have hstep : TestSiteHandler.identUserStep userTable cri
      = ({ user := some (UserValue.record (UserDBRecord.newFromClientRequestInfo cri)),
           tifValues := 0 }, userTable ++ [UserDBRecord.newFromClientRequestInfo cri]) := by
    simp only [TestSiteHandler.identUserStep, hfue]
  have h1 : (TestSiteHandler.ident userTable nutTable cri nutInfo).1
      = (TestSiteHandler.identUserStep userTable cri).1 := rfl
  have h2 : (TestSiteHandler.ident userTable nutTable cri nutInfo).2.1
      = (TestSiteHandler.identUserStep userTable cri).2 := rfl
  rw [hstep] at h1 h2
  obtain ⟨f1, f2, f3, f4, f5⟩ := newFromClientRequestInfo_fields cri
  exact ⟨by rw [h1], by rw [h2], by rw [h1], f1, f2, f3, f4, f5⟩

theorem spec2proof_C4_witness :
    (∀ d ∈ ([] : List UserDBRecord),
      ¬ d.sqrlPrimaryIdentityPublicKey
          = ({ sqrlCommand := "ident", primaryIdentityPublicKey := "C",
               serverUnlockPublicKey := some "suk" } : ClientRequestInfo).primaryIdentityPublicKey
      ∧ (∀ p, ({ sqrlCommand := "ident", primaryIdentityPublicKey := "C",
                 serverUnlockPublicKey := some "suk" }
                 : ClientRequestInfo).previousIdentityPublicKey = some p →
          ¬ d.sqrlPrimaryIdentityPublicKey = p))
    ∧ (TestSiteHandler.ident [] [{ nut := "n1" }]
        { sqrlCommand := "ident", primaryIdentityPublicKey := "C",
          serverUnlockPublicKey := some "suk" }
        { nut := "n1" }).1.tifValues = 0
    ∧ (TestSiteHandler.ident [] [{ nut := "n1" }]
        { sqrlCommand := "ident", primaryIdentityPublicKey := "C",
          serverUnlockPublicKey := some "suk" }
        { nut := "n1" }).2.1
      = [] ++ [UserDBRecord.newFromClientRequestInfo
          { sqrlCommand := "ident", primaryIdentityPublicKey := "C",
            serverUnlockPublicKey := some "suk" }] :=
  ⟨by simp,
    (spec2proof_C4 [] [{ nut := "n1" }]
      { sqrlCommand := "ident", primaryIdentityPublicKey := "C",
        serverUnlockPublicKey := some "suk" }
      { nut := "n1" } (by simp)).1,
    (spec2proof_C4 [] [{ nut := "n1" }]
      { sqrlCommand := "ident", primaryIdentityPublicKey := "C",
        serverUnlockPublicKey := some "suk" }
      { nut := "n1" } (by simp)).2.1⟩

/-- Claim C8: a poll on a nut whose record is logged in but whose client
primary identity key is unset reports the pending body `{loggedIn: false}`,
and a success report requires both `loggedIn` and a set (truthy) client key
on the nut record. -/
theorem spec2proof_C8 (nutParam : Option String) (nutTable : List NutDBRecord)
    (userTable : List UserDBRecord) :
    (∀ r, jsTruthyOptStr nutParam = true →
      TestSiteHandler.getNutRecord nutTable (nutParam.getD "") = some r →
      r.loggedIn = true →
      jsTruthyOptStr r.clientPrimaryIdentityPublicKey = false →
      TestSiteHandler.pollNutHandler nutParam nutTable userTable = NutPollOutcome.pending)
    ∧ (∀ b u red,
        TestSiteHandler.pollNutHandler nutParam nutTable userTable
          = NutPollOutcome.success b u red →
        ∃ r, TestSiteHandler.getNutRecord nutTable (nutParam.getD "") = some r
          ∧ r.loggedIn = true
          ∧ jsTruthyOptStr r.clientPrimaryIdentityPublicKey = true
          ∧ b = true) := by
  constructor
  · intro r htr hfind hlog hkey
    simp only [TestSiteHandler.pollNutHandler]
    rw [if_pos htr, hfind]
    simp [hlog, hkey]
  · intro b u red hsucc
    by_cases htr : jsTruthyOptStr nutParam = true
    · simp only [TestSiteHandler.pollNutHandler] at hsucc
      rw [if_pos htr] at hsucc
      cases hfind : TestSiteHandler.getNutRecord nutTable (nutParam.getD "") with
      | none =>
        rw [hfind] at hsucc
        exact absurd hsucc (by simp)
      | some r =>
        rw [hfind] at hsucc
        have hsucc2 : (if (!r.loggedIn
              || !(jsTruthyOptStr r.clientPrimaryIdentityPublicKey)) = true then
              NutPollOutcome.pending
            else NutPollOutcome.success r.loggedIn
              (nedbFindOne userTable (fun d =>
                d.sqrlPrimaryIdentityPublicKey == r.clientPrimaryIdentityPublicKey.getD ""))
              "/") = NutPollOutcome.success b u red := hsucc
        by_cases hcond : (!r.loggedIn || !(jsTruthyOptStr r.clientPrimaryIdentityPublicKey))
            = true
        · rw [if_pos hcond] at hsucc2
          exact absurd hsucc2 (by simp)
        · rw [if_neg hcond] at hsucc2
          simp only [Bool.or_eq_true, Bool.not_eq_true'] at hcond
          push_neg at hcond
          obtain ⟨hlog, hkey⟩ := hcond
          injection hsucc2 with hb hu hred
          have hlt : r.loggedIn = true := by simpa using hlog
          have hkt : jsTruthyOptStr r.clientPrimaryIdentityPublicKey = true := by
            simpa using hkey
          exact ⟨r, rfl, hlt, hkt, hb ▸ hlt⟩
    · simp only [TestSiteHandler.pollNutHandler] at hsucc
      rw [if_neg htr] at hsucc
      exact absurd hsucc (by simp)

theorem spec2proof_C8_witness :
    jsTruthyOptStr (some "n1") = true
    ∧ TestSiteHandler.getNutRecord [{ nut := "n1", loggedIn := true }] ((some "n1").getD "")
        = some { nut := "n1", loggedIn := true }
    ∧ TestSiteHandler.pollNutHandler (some "n1") [{ nut := "n1", loggedIn := true }] []
        = NutPollOutcome.pending :=
  ⟨by decide, by decide,
    (spec2proof_C8 (some "n1") [{ nut := "n1", loggedIn := true }] []).1
      { nut := "n1", loggedIn := true } (by decide) (by decide) (by decide) (by decide)⟩
